import Mathlib

/-!
A shallow embedding of the P2P repository (tracker + peer) in Lean 4.

Conventions used throughout:
* Python dicts are modelled as insertion-ordered association lists
  (`List (String × α)`) with the dictionary operations `dlookup`, `dset`
  (replace in place, append when new) and `derase`.
* `time.time()` values are modelled as integers (`Int`); only ordering and
  differences of timestamps matter to the properties considered here.
* Byte strings are modelled as `List Nat` (one entry per byte).
* SHA-256 is modelled as an opaque parameter `hash : Bytes → String`; the
  code under study only ever calls it and compares digests for equality.
-/

namespace P2P

/-! ### Association lists standing for Python dicts -/

/-- `m.get(k)` on a Python dict. -/
def dlookup {α : Type} : List (String × α) → String → Option α
  | [], _ => none
  | (k, v) :: rest, key => if k = key then some v else dlookup rest key

/-- `m[k] = v` on a Python dict: replace in place when the key is present,
append at the end otherwise. -/
def dset {α : Type} : List (String × α) → String → α → List (String × α)
  | [], key, v => [(key, v)]
  | (k, w) :: rest, key, v =>
    if k = key then (key, v) :: rest else (k, w) :: dset rest key v

/-- `k in m` on a Python dict. -/
def dmem {α : Type} (m : List (String × α)) (key : String) : Bool :=
  (dlookup m key).isSome

/-- `del m[k]` on a Python dict (no duplicate keys ever arise in the
tables built below, so filtering is the deletion). -/
def derase {α : Type} (m : List (String × α)) (key : String) : List (String × α) :=
  m.filter (fun p => p.1 != key)

theorem dlookup_dset_self {α : Type} (m : List (String × α)) (k : String) (v : α) :
    dlookup (dset m k v) k = some v := by
  induction m with
  | nil => simp [dset, dlookup]
  | cons hd tl ih =>
    by_cases h : hd.1 = k
    · simp [dset, dlookup, h]
    · simp [dset, dlookup, h, ih]

theorem dset_eq_append_of_lookup_none {α : Type} {m : List (String × α)} {k : String}
    (h : dlookup m k = none) (v : α) : dset m k v = m ++ [(k, v)] := by
  induction m with
  | nil => simp [dset]
  | cons hd tl ih =>
    by_cases hk : hd.1 = k
    · simp [dlookup, hk] at h
    · simp [dlookup, hk] at h
      simp [dset, hk, ih h]

theorem mem_dset {α : Type} {m : List (String × α)} {k : String} {v : α} {p : String × α}
    (h : p ∈ dset m k v) : p = (k, v) ∨ p ∈ m := by
  induction m with
  | nil => simpa [dset] using h
  | cons hd tl ih =>
    by_cases hk : hd.1 = k
    · simp only [dset, hk, if_pos rfl] at h
      rcases List.mem_cons.mp h with h | h
      · exact Or.inl h
      · exact Or.inr (List.mem_cons_of_mem _ h)
    · simp only [dset, if_neg hk] at h
      rcases List.mem_cons.mp h with h | h
      · exact Or.inr (h ▸ List.mem_cons_self _ _)
      · rcases ih h with h | h
        · exact Or.inl h
        · exact Or.inr (List.mem_cons_of_mem _ h)

theorem dlookup_eq_some_mem {α : Type} {m : List (String × α)} {k : String} {v : α}
    (h : dlookup m k = some v) : (k, v) ∈ m := by
  induction m with
  | nil => simp [dlookup] at h
  | cons hd tl ih =>
    obtain ⟨k', w⟩ := hd
    by_cases hk : k' = k
    · subst hk
      simp only [dlookup, if_pos] at h
      cases h
      exact List.mem_cons_self _ _
    · simp only [dlookup, if_neg hk] at h
      exact List.mem_cons_of_mem _ (ih h)

/-! ### Tracker data model (`Tracker/Tracker.py`) -/

/-- One entry of `Tracker.peers`:
`{ 'files': {...}, 'last_seen': timestamp, 'addr': 'ip:port' }`. -/
structure PeerRecord where
  files : List (String × List Nat)
  last_seen : Int
  addr : String
deriving DecidableEq, Repr

/-- The tracker's `self.peers` dictionary. -/
abbrev PeerTable := List (String × PeerRecord)

/-- `Tracker.PEER_TIMEOUT_MINUTES`. -/
def PEER_TIMEOUT_MINUTES : Nat := 2

/-- `timeout_threshold = PEER_TIMEOUT_MINUTES * 60` in
`_remove_timeout_peers_loop`. -/
def timeoutThreshold : Int := PEER_TIMEOUT_MINUTES * 60

/-- A JSON reply datagram sent by the tracker. -/
inductive Reply where
  | peersList (peers : PeerTable)
  | ack
  | errorReply (code message : String)
deriving DecidableEq, Repr

/-- Observable outcome of handling one UDP request.  `deadlock` marks the
handler thread blocking forever on re-acquiring the (non-reentrant)
`threading.Lock` it already holds: no reply is ever sent and the table is
left as it was (with the lock held forever). -/
inductive Outcome where
  | silent
  | sent (r : Reply)
  | deadlock
deriving DecidableEq, Repr

/-- The fields a request JSON object may carry.  `command` / `peer_id`
absent-or-empty are both falsy in the Python guard; `port` is falsy when
absent or `0`; `files` defaults to the empty dict
(`payload.get("files", {})`). -/
structure Payload where
  command : Option String
  peer_id : Option String
  port : Option Nat
  files : List (String × List Nat)
deriving DecidableEq, Repr

/-- Python truthiness of the optional `port` field. -/
def truthyPort : Option Nat → Bool
  | some n => n != 0
  | none => false

/-- The text Python interpolates for the port inside
`f"{peer_ip}:{peer_tcp_port}"` (`"None"` when the field is absent). -/
def portString : Option Nat → String
  | some n => toString n
  | none => "None"

/-- `Tracker._send_peers_list`: the reply carries the current table with
the requester's own id filtered out. -/
def sendPeersList (table : PeerTable) (requester : String) : Reply :=
  Reply.peersList (table.filter (fun p => p.1 != requester))

/-- `Tracker._handle_register`.  `lockHeld` records whether the caller is
already inside a `with self.peers_lock:` block (true only when invoked
from `_handle_heartbeat`); `threading.Lock` is not reentrant, so acquiring
it again blocks the thread forever. -/
def handleRegister (lockHeld : Bool) (now : Int) (peerIp : String) (port : Option Nat)
    (pid : String) (table : PeerTable) : PeerTable × Outcome :=
  if truthyPort port = false then
    -- "Pedido de registo ... sem porta TCP." : log and return, no reply
    (table, Outcome.silent)
  else if lockHeld then
    (table, Outcome.deadlock)
  else
    let addr := peerIp ++ ":" ++ portString port
    let table' := dset table pid ⟨[], now, addr⟩
    (table', Outcome.sent (sendPeersList table' pid))

/-- `Tracker._handle_update`.  Note that the unknown-peer branch inserts a
record unconditionally, whether or not a `port` field was supplied (the
address is then the literal string `"<ip>:None"`). -/
def handleUpdate (now : Int) (peerIp : String) (port : Option Nat)
    (files : List (String × List Nat)) (pid : String) (table : PeerTable) :
    PeerTable × Outcome :=
  let addr := peerIp ++ ":" ++ portString port
  let table' :=
    match dlookup table pid with
    | some r0 => dset table pid { r0 with files := files, last_seen := now }
    | none => dset table pid ⟨files, now, addr⟩
  (table', Outcome.sent (sendPeersList table' pid))

/-- `Tracker._handle_unregister`. -/
def handleUnregister (pid : String) (table : PeerTable) : PeerTable × Outcome :=
  (derase table pid, Outcome.sent Reply.ack)

/-- `Tracker._handle_heartbeat`.  The unknown-peer-with-port branch calls
`_handle_register` while still holding `peers_lock`. -/
def handleHeartbeat (now : Int) (peerIp : String) (port : Option Nat)
    (pid : String) (table : PeerTable) : PeerTable × Outcome :=
  match dlookup table pid with
  | some r0 => (dset table pid { r0 with last_seen := now }, Outcome.sent Reply.ack)
  | none =>
    if truthyPort port then
      handleRegister true now peerIp port pid table
    else
      (table, Outcome.sent Reply.ack)

/-- How `Tracker._handle_request` can perceive one received datagram.
The tracker runs `json.loads(data.decode('utf-8'))` on the raw bytes:
* `notUtf8` — `data.decode` raises `UnicodeDecodeError`, which is not a
  `json.JSONDecodeError`, so the generic handler replies `PROCESSING_ERROR`;
* `utf8NotJson` — `json.loads` raises `JSONDecodeError`: logged, no reply;
* `jsonNonObject` — the payload parses but is not a dict, so
  `payload.get` raises `AttributeError`: reply `PROCESSING_ERROR`;
* `compressed` — the peer-side encoding `b'COMPRESSED:' + zlib(...)`.
  Since the tracker never strips the marker, such bytes are (depending on
  whether the zlib stream happens to decode as UTF-8) one of the two
  parse-failure cases above: text starting with `COMPRESSED:` is never
  valid JSON;
* `jsonObject` — a JSON object with the fields of `Payload`. -/
inductive Datagram where
  | notUtf8
  | utf8NotJson
  | jsonNonObject
  | compressed (inner : Payload) (utf8Decodable : Bool)
  | jsonObject (p : Payload)
deriving DecidableEq, Repr

def procErrorMsg : String := "Erro interno no tracker."
def unknownCmdMsg : String := "Comando não reconhecido."

/-- `Tracker._handle_request`, sequentialized (the single `peers_lock`
makes table accesses atomic). -/
def handleRequest (now : Int) (peerIp : String) (table : PeerTable) (d : Datagram) :
    PeerTable × Outcome :=
  match d with
  | .notUtf8 => (table, Outcome.sent (Reply.errorReply "PROCESSING_ERROR" procErrorMsg))
  | .utf8NotJson => (table, Outcome.silent)
  | .jsonNonObject => (table, Outcome.sent (Reply.errorReply "PROCESSING_ERROR" procErrorMsg))
  | .compressed _ u =>
    if u then (table, Outcome.silent)
    else (table, Outcome.sent (Reply.errorReply "PROCESSING_ERROR" procErrorMsg))
  | .jsonObject p =>
    match p.command, p.peer_id with
    | some cmd, some pid =>
      if cmd = "" ∨ pid = "" then (table, Outcome.silent)
      else if cmd = "REGISTER" then handleRegister false now peerIp p.port pid table
      else if cmd = "UPDATE" then handleUpdate now peerIp p.port p.files pid table
      else if cmd = "UNREGISTER" then handleUnregister pid table
      else if cmd = "HEARTBEAT" then handleHeartbeat now peerIp p.port pid table
      else (table, Outcome.sent (Reply.errorReply "UNKNOWN_COMMAND" unknownCmdMsg))
    | _, _ => (table, Outcome.silent)

/-- One pass of `Tracker._remove_timeout_peers_loop`: delete every entry
with `now - last_seen > timeout_threshold`, keep the rest untouched. -/
def reaperPass (now : Int) (table : PeerTable) : PeerTable :=
  table.filter (fun p => !decide (now - p.2.last_seen > timeoutThreshold))

/-! ### Peer-side UDP encoding (`Peer/NetworkManager.py`) -/

/-- `NetworkManager.COMPRESSION_THRESHOLD`. -/
def COMPRESSION_THRESHOLD : Nat := 1024

/-- The decision taken by `NetworkManager._compress_if_needed`: compress
exactly when the serialized payload is longer than the threshold. -/
def compressIfNeeded (encodedLen : Nat) : Bool :=
  encodedLen > COMPRESSION_THRESHOLD

/-- `NetworkManager._send_udp_request` encoding step, as it arrives at the
tracker: an over-threshold payload is sent as `b'COMPRESSED:' + zlib(...)`,
anything else as plain JSON. -/
def peerEncodesRequest (p : Payload) (encodedLen : Nat) (utf8Decodable : Bool) : Datagram :=
  if compressIfNeeded encodedLen then Datagram.compressed p utf8Decodable
  else Datagram.jsonObject p

/-! ### ContentStore (`Peer/FileManager.py`)

The on-disk state relevant to the claims is the shared folder (final
files and `.part` temporaries, keyed by name) and the chunk files (keyed
by their `"<safe(file)>.<index>.chunk"` filename).  All disk writes in
the source are modelled by their net effect on these two maps. -/

abbrev Bytes := List Nat

/-- `FileManager.CHUNK_SIZE = 1024 * 1024`. -/
def CHUNK_SIZE : Nat := 1024 * 1024

/-- The in-memory metadata record for one file. -/
structure FileMeta where
  fileName : String
  fileSize : Nat
  fileHash : String
  totalChunks : Nat
  createdAt : Int
deriving DecidableEq, Repr

/-- The two in-memory maps of `FileManager`. -/
structure StoreState where
  localFilesMetadata : List (String × FileMeta)
  availableChunks : List (String × List Nat)
deriving DecidableEq, Repr

/-- On-disk state: files in the shared folder and chunk files. -/
structure Disk where
  shared : List (String × Bytes)
  chunks : List (String × Bytes)
deriving DecidableEq, Repr

/-- Trailing-whitespace strip (`str.rstrip()`); a no-op after the filter
below since whitespace never passes it, kept for fidelity. -/
def rstripSpaces (s : String) : String :=
  String.mk ((s.toList.reverse.dropWhile Char.isWhitespace).reverse)

/-- `FileManager._safe_filename`: keep alphanumerics and `. _ -`. -/
def safeFilename (s : String) : String :=
  rstripSpaces (String.mk (s.toList.filter
    (fun c => c.isAlphanum || c == '.' || c == '_' || c == '-')))

/-- The chunk file name `f"{safe(file)}.{index}.chunk"`. -/
def chunkFileName (name : String) (i : Nat) : String :=
  safeFilename name ++ "." ++ toString i ++ ".chunk"

/-- `FileManager.save_chunk`: write the chunk file, then record the index
in the in-memory set (creating the entry if the file is unknown). -/
def saveChunk (st : StoreState) (disk : Disk) (name : String) (i : Nat) (data : Bytes) :
    StoreState × Disk :=
  let disk' := { disk with chunks := dset disk.chunks (chunkFileName name i) data }
  let cur := match dlookup st.availableChunks name with
    | some s => s
    | none => []
  let cur' := if i ∈ cur then cur else cur ++ [i]
  ({ st with availableChunks := dset st.availableChunks name cur' }, disk')

/-- `FileManager.load_chunk`. -/
def loadChunk (disk : Disk) (name : String) (i : Nat) : Option Bytes :=
  dlookup disk.chunks (chunkFileName name i)

/-- `FileManager.get_file_metadata`. -/
def getFileMetadata (st : StoreState) (name : String) : Option FileMeta :=
  dlookup st.localFilesMetadata name

/-- `FileManager.has_complete_file`: false when metadata is absent or the
chunk set is absent or empty (both falsy in Python), else the count
comparison. -/
def hasCompleteFile (st : StoreState) (name : String) : Bool :=
  match dlookup st.localFilesMetadata name, dlookup st.availableChunks name with
  | some m, some cs => !cs.isEmpty && (cs.length == m.totalChunks)
  | _, _ => false

/-- The stem of a file name in the sense of `pathlib` (everything before
the final dot, unless that dot is the leading character). -/
def stemOf (name : String) : String :=
  let cs := name.toList
  match cs.reverse.findIdx? (fun c => c == '.') with
  | some j =>
    let dotPos := cs.length - 1 - j
    if dotPos = 0 then name else String.mk (cs.take dotPos)
  | none => name

/-- `output_path.with_suffix('.part')`. -/
def withSuffixPart (name : String) : String :=
  stemOf name ++ ".part"

/-- The chunk-concatenation loop of `reconstruct_file`: load chunks
`0..total-1` in order; `none` as soon as one is missing. -/
def collectChunks (disk : Disk) (name : String) (total : Nat) : Option Bytes :=
  (List.range total).foldl
    (fun acc i =>
      match acc, loadChunk disk name i with
      | some bs, some c => some (bs ++ c)
      | _, _ => none)
    (some [])

/-- The write-verify-rename tail of `reconstruct_file`.  Net disk
effects: on a missing chunk or a hash mismatch the `.part` temporary is
unlinked; on success it is renamed onto the final name. -/
def reconstructWrite (hash : Bytes → String) (meta : FileMeta) (disk : Disk)
    (name : String) : Bool × Disk :=
  let tempName := withSuffixPart name
  match collectChunks disk name meta.totalChunks with
  | none => (false, { disk with shared := derase disk.shared tempName })
  | some bs =>
    if hash bs = meta.fileHash then
      (true, { disk with shared := dset (derase disk.shared tempName) name bs })
    else
      (false, { disk with shared := derase disk.shared tempName })

/-- `FileManager.reconstruct_file`.  A pre-existing file of the expected
size is reported as success without any hash check. -/
def reconstructFile (hash : Bytes → String) (st : StoreState) (disk : Disk)
    (name : String) : Bool × Disk :=
  if hasCompleteFile st name = false then (false, disk)
  else
    match dlookup st.localFilesMetadata name with
    | none => (false, disk)
    | some meta =>
      match dlookup disk.shared name with
      | some existing =>
        if existing.length = meta.fileSize then (true, disk)
        else reconstructWrite hash meta disk name
      | none => reconstructWrite hash meta disk name

/-- Invariant (a) of the spec: every key of `availableChunks` has a
metadata record. -/
def chunksHaveMetadata (st : StoreState) : Bool :=
  st.availableChunks.all (fun p => dmem st.localFilesMetadata p.1)

/-- The chunking performed by `process_new_file`:
`total_chunks = (size + CHUNK_SIZE - 1) // CHUNK_SIZE` sequential reads
of `CHUNK_SIZE` bytes (generic in the chunk size). -/
def pyChunks (cs : Nat) (s : Bytes) : List Bytes :=
  (List.range ((s.length + cs - 1) / cs)).map (fun i => (s.drop (i * cs)).take cs)

/-- `process_new_file`-chunking at the source's `CHUNK_SIZE`. -/
def fileChunks (s : Bytes) : List Bytes :=
  pyChunks CHUNK_SIZE s

/-! ### Swarm downloader (`Peer/DownloadManager.py`) -/

/-- One entry of the peer-side `known_peers` table. -/
structure KnownPeer where
  addr : String
  files : List (String × List Nat)
deriving DecidableEq, Repr

/-- The score `_get_rarest_chunks_first` computes for a needed chunk:
the frequency dict starts at 0 for every needed index and is incremented
once per occurrence of the index in the chunk list of each known peer
advertising the file. -/
def chunkScore (peers : List (String × KnownPeer)) (file : String) (idx : Nat) : Nat :=
  (peers.map (fun p =>
    match dlookup p.2.files file with
    | some cs => cs.count idx
    | none => 0)).sum

/-- The score as the spec words it: the number of known peers advertising
the file whose chunk list contains the index. -/
def specScore (peers : List (String × KnownPeer)) (file : String) (idx : Nat) : Nat :=
  (peers.filter (fun p =>
    match dlookup p.2.files file with
    | some cs => decide (idx ∈ cs)
    | none => false)).length

/-- The total preorder under which a stable sort by `key` of a
position-decorated list is an ordinary sort: compare keys, break ties by
original position. -/
def stableLe (key : Nat → Nat) (p q : Nat × Nat) : Prop :=
  key p.2 < key q.2 ∨ (key p.2 = key q.2 ∧ p.1 ≤ q.1)

instance (key : Nat → Nat) : DecidableRel (stableLe key) := fun p q => by
  unfold stableLe
  infer_instance

instance (key : Nat → Nat) : IsTotal (Nat × Nat) (stableLe key) :=
  ⟨by intro a b; unfold stableLe; omega⟩

instance (key : Nat → Nat) : IsTrans (Nat × Nat) (stableLe key) :=
  ⟨by intro a b c; unfold stableLe; omega⟩

/-- The semantics of Python's stable `sorted(xs, key=k)`: decorate each
element with its position, sort by (key, position), strip positions. -/
def pyStableSortByKey (key : Nat → Nat) (xs : List Nat) : List Nat :=
  ((xs.enum).insertionSort (stableLe key)).map Prod.snd

/-- `DownloadManager._get_rarest_chunks_first`: stable sort of the needed
indices (in their set-iteration order) by ascending frequency. -/
def getRarestChunksFirst (needed : List Nat) (file : String)
    (peers : List (String × KnownPeer)) : List Nat :=
  pyStableSortByKey (chunkScore peers file) needed

/-- `DownloadManager.CHUNK_DOWNLOADER_THREADS`. -/
def CHUNK_DOWNLOADER_THREADS : Nat := 5

/-- The batch `_fetch_all_needed_chunks` submits each round:
`sorted_chunks_to_download[:CHUNK_DOWNLOADER_THREADS]`. -/
def fetchBatch (needed : List Nat) (file : String)
    (peers : List (String × KnownPeer)) : List Nat :=
  (getRarestChunksFirst needed file peers).take CHUNK_DOWNLOADER_THREADS

/-! ### Concrete states used by counterexamples and witnesses -/

/-- The payload of an over-threshold UPDATE request (its JSON encoding is
longer than 1024 bytes, so `_send_udp_request` compresses it). -/
def bigUpdatePayload : Payload :=
  ⟨some "UPDATE", some "Peer_10.0.0.1:7000", some 7000, [("big.bin", [0, 1, 2])]⟩

/-- Store state where file `f` has full metadata and its single chunk. -/
def cexStore : StoreState :=
  ⟨[("f", ⟨"f", 1, "GOOD", 1, 0⟩)], [("f", [0])]⟩

/-- Disk where a file named `f` of the expected size 1 already exists in
the shared folder but holds different bytes than the chunk store. -/
def cexDisk : Disk :=
  ⟨[("f", [9])], [("f.0.chunk", [7])]⟩

/-- A concrete stand-in digest function that never returns "GOOD". -/
def cexHash : Bytes → String := fun _ => "HH"

/-- A known-peers table in the spec's rarest-first scenario: peer A holds
chunks 0, 1, 2 of `x.bin` and peer C holds only chunk 2. -/
def ratePeers : List (String × KnownPeer) :=
  [("A", ⟨"10.0.0.2:7001", [("x.bin", [0, 1, 2])]⟩),
   ("C", ⟨"10.0.0.3:7002", [("x.bin", [2])]⟩)]

/-! ### Theorems about the tracker -/

/-- Claim C1: the spec requires the tracker to detect the `COMPRESSED:`
marker and decompress before JSON parsing.  The code does not: a payload
whose encoding exceeds `COMPRESSION_THRESHOLD` is sent compressed by the
peer, and the tracker then either drops it silently (when the bytes decode
as UTF-8 the `json.loads` failure is swallowed) or answers
`PROCESSING_ERROR` (when decoding fails) — the request is never processed,
unlike its uncompressed form, which registers the update. -/
theorem compressed_request_never_processed :
    compressIfNeeded 1025 = true ∧
    peerEncodesRequest bigUpdatePayload 1025 true = Datagram.compressed bigUpdatePayload true ∧
    handleRequest 100 "10.0.0.1" [] (Datagram.compressed bigUpdatePayload true) =
      ([], Outcome.silent) ∧
    handleRequest 100 "10.0.0.1" [] (Datagram.compressed bigUpdatePayload false) =
      ([], Outcome.sent (Reply.errorReply "PROCESSING_ERROR" procErrorMsg)) ∧
    handleRequest 100 "10.0.0.1" [] (Datagram.jsonObject bigUpdatePayload) =
      ([("Peer_10.0.0.1:7000", ⟨[("big.bin", [0, 1, 2])], 100, "10.0.0.1:7000"⟩)],
        Outcome.sent (Reply.peersList [])) := by
  refine ⟨rfl, rfl, rfl, rfl, ?_⟩
  decide

/-- Claim C3: a HEARTBEAT from an unknown peer that does carry a TCP port
does not act as a REGISTER; `_handle_heartbeat` calls `_handle_register`
while still holding the non-reentrant `peers_lock`, so the handler thread
blocks forever: no record is inserted and no reply is sent. -/
theorem heartbeat_unknown_peer_deadlocks :
    handleRequest 0 "9.9.9.9" []
        (Datagram.jsonObject ⟨some "HEARTBEAT", some "PeerX", some 4242, []⟩) =
      ([], Outcome.deadlock) := by
  decide

/-- Claim C4 (counterexample): a datagram that is valid UTF-8 but not
valid JSON (for instance the five bytes `hello`) is dropped silently —
no `PROCESSING_ERROR` reply is sent, contrary to the claim. -/
theorem utf8_nonjson_dropped_silently :
    handleRequest 0 "1.2.3.4" [("q", ⟨[], 0, "a"⟩)] Datagram.utf8NotJson =
      ([("q", ⟨[], 0, "a"⟩)], Outcome.silent) := by
  decide

/-- Claim C4 (amended): a valid-UTF-8 non-JSON datagram is dropped
silently; a datagram that fails UTF-8 decoding, or whose JSON value is
not an object, gets a `PROCESSING_ERROR` error reply; a JSON object with
missing (or empty, hence falsy) `command` or `peer_id` is dropped
silently; an unknown command gets an `UNKNOWN_COMMAND` error reply.  The
peer table is unchanged in every case. -/
theorem malformed_request_handling (now : Int) (ip : String) (table : PeerTable)
    (cmd pid : String) (port : Option Nat) (files : List (String × List Nat))
    (hcmd : cmd ∉ ["", "REGISTER", "UPDATE", "UNREGISTER", "HEARTBEAT"])
    (hpid : pid ≠ "") :
    handleRequest now ip table Datagram.utf8NotJson = (table, Outcome.silent) ∧
    handleRequest now ip table Datagram.notUtf8 =
      (table, Outcome.sent (Reply.errorReply "PROCESSING_ERROR" procErrorMsg)) ∧
    handleRequest now ip table Datagram.jsonNonObject =
      (table, Outcome.sent (Reply.errorReply "PROCESSING_ERROR" procErrorMsg)) ∧
    handleRequest now ip table (Datagram.jsonObject ⟨none, some pid, port, files⟩) =
      (table, Outcome.silent) ∧
    handleRequest now ip table (Datagram.jsonObject ⟨some "", some pid, port, files⟩) =
      (table, Outcome.silent) ∧
    handleRequest now ip table (Datagram.jsonObject ⟨some cmd, none, port, files⟩) =
      (table, Outcome.silent) ∧
    handleRequest now ip table (Datagram.jsonObject ⟨some cmd, some "", port, files⟩) =
      (table, Outcome.silent) ∧
    handleRequest now ip table (Datagram.jsonObject ⟨some cmd, some pid, port, files⟩) =
      (table, Outcome.sent (Reply.errorReply "UNKNOWN_COMMAND" unknownCmdMsg)) := by
  simp only [List.mem_cons, List.not_mem_nil, or_false, not_or] at hcmd
  obtain ⟨h0, h1, h2, h3, h4⟩ := hcmd
  refine ⟨rfl, rfl, rfl, ?_, ?_, ?_, ?_, ?_⟩ <;>
    simp [handleRequest, h0, h1, h2, h3, h4, hpid]

/-- Witness for the amended C4: the unknown command `FOO` draws an
`UNKNOWN_COMMAND` error reply and leaves the table unchanged. -/
theorem malformed_request_handling_witness :
    handleRequest 0 "1.2.3.4" [] (Datagram.jsonObject ⟨some "FOO", some "p", none, []⟩) =
      ([], Outcome.sent (Reply.errorReply "UNKNOWN_COMMAND" unknownCmdMsg)) :=
  (malformed_request_handling 0 "1.2.3.4" [] "FOO" "p" none [] (by decide)
    (by decide)).2.2.2.2.2.2.2

/-- Claim C5 (counterexample): an UPDATE from an unknown peer **without**
a `port` field does create a record — with address `"1.2.3.4:None"` —
contrary to the claim that no record is created. -/
theorem update_unknown_peer_without_port_inserts :
    handleRequest 50 "1.2.3.4" []
        (Datagram.jsonObject ⟨some "UPDATE", some "p1", none, [("f", [0])]⟩) =
      ([("p1", ⟨[("f", [0])], 50, "1.2.3.4:None"⟩)],
        Outcome.sent (Reply.peersList [])) := by
  decide

/-- Claim C5 (amended): on an UPDATE from an unknown peer a new record is
inserted unconditionally — whether or not `port` is present — with
`addr = <source-ip>:<port text>` where the port text is the literal
`"None"` when the field is absent; for a known peer the files map is
overwritten and `last_seen` bumped (address untouched), regardless of
port.  In both cases the reply is the peer list excluding the requester. -/
theorem update_effect (now : Int) (ip : String) (port : Option Nat)
    (files : List (String × List Nat)) (pid : String) (table : PeerTable) :
    (handleUpdate now ip port files pid table).1 =
      (match dlookup table pid with
        | none => table ++ [(pid, ⟨files, now, ip ++ ":" ++ portString port⟩)]
        | some r0 => dset table pid ⟨files, now, r0.addr⟩) ∧
    (handleUpdate now ip port files pid table).2 =
      Outcome.sent (sendPeersList (handleUpdate now ip port files pid table).1 pid) := by
  cases h : dlookup table pid with
  | none =>
    simp [handleUpdate, h, dset_eq_append_of_lookup_none h]
  | some r0 =>
    simp [handleUpdate, h]

/-- Claim C9: after a reaper pass, the surviving table is exactly the
filter keeping the records with `now - last_seen ≤ 120`, each kept record
being the untouched original, and every survivor satisfies the timeout
invariant. -/
theorem reaper_pass_bound (now : Int) (table : PeerTable) :
    reaperPass now table =
      table.filter (fun p => decide (now - p.2.last_seen ≤ timeoutThreshold)) ∧
    ∀ p ∈ reaperPass now table,
      now - p.2.last_seen ≤ timeoutThreshold ∧ p ∈ table := by
  have hfun : reaperPass now table =
      table.filter (fun p => decide (now - p.2.last_seen ≤ timeoutThreshold)) := by
    unfold reaperPass
    apply List.filter_congr
    intro p _
    by_cases h : now - p.2.last_seen ≤ timeoutThreshold
    · simp [h, not_lt.mpr h]
    · simp [h, lt_of_not_ge h]
  refine ⟨hfun, ?_⟩
  intro p hp
  rw [hfun] at hp
  have := List.mem_filter.mp hp
  exact ⟨by simpa using this.2, this.1⟩

/-- Witness for C9 at a concrete table: the record seen 50 s ago survives
the pass and satisfies the bound; (the one seen 150 s ago is gone). -/
theorem reaper_pass_bound_witness :
    (150 : Int) - 100 ≤ timeoutThreshold ∧
      ("a", (⟨[], 100, "x"⟩ : PeerRecord)) ∈
        [("a", (⟨[], 100, "x"⟩ : PeerRecord)), ("b", ⟨[], 0, "y"⟩)] :=
  (reaper_pass_bound 150 [("a", ⟨[], 100, "x"⟩), ("b", ⟨[], 0, "y"⟩)]).2
    ("a", ⟨[], 100, "x"⟩) (by decide)

/-- Claim C10: a REGISTER whose payload lacks a truthy `port` (absent, or
the falsy value `0`) is ignored: table unchanged, no reply of any kind. -/
theorem register_without_port_ignored (now : Int) (ip : String) (table : PeerTable)
    (pid : String) (files : List (String × List Nat)) (hpid : pid ≠ "") :
    handleRequest now ip table
        (Datagram.jsonObject ⟨some "REGISTER", some pid, none, files⟩) =
      (table, Outcome.silent) ∧
    handleRequest now ip table
        (Datagram.jsonObject ⟨some "REGISTER", some pid, some 0, files⟩) =
      (table, Outcome.silent) := by
  constructor <;> simp [handleRequest, hpid, handleRegister, truthyPort]

/-- Witness for C10 at a concrete request. -/
theorem register_without_port_ignored_witness :
    handleRequest 5 "8.8.8.8" [("q", ⟨[], 0, "a"⟩)]
        (Datagram.jsonObject ⟨some "REGISTER", some "p1", none, []⟩) =
      ([("q", ⟨[], 0, "a"⟩)], Outcome.silent) :=
  (register_without_port_ignored 5 "8.8.8.8" [("q", ⟨[], 0, "a"⟩)] "p1" []
    (by decide)).1

/-! ### Theorems about the ContentStore -/

/-- Claim C2 (counterexample): `reconstruct_file` reports success for a
pre-existing file of the expected size without any hash check, so success
does not imply that the file's digest matches the stored `fileHash`:
here the shared file holds byte `9`, hashes to `"HH"`, and the stored
hash is `"GOOD"`. -/
theorem reconstruct_success_without_hash_check :
    (reconstructFile cexHash cexStore cexDisk "f").1 = true ∧
    dlookup (reconstructFile cexHash cexStore cexDisk "f").2.shared "f" = some [9] ∧
    getFileMetadata cexStore "f" = some ⟨"f", 1, "GOOD", 1, 0⟩ ∧
    cexHash [9] ≠ "GOOD" := by
  decide

theorem reconstructWrite_success {hash : Bytes → String} {meta : FileMeta} {disk : Disk}
    {name : String} (h : (reconstructWrite hash meta disk name).1 = true) :
    ∃ bs, dlookup (reconstructWrite hash meta disk name).2.shared name = some bs ∧
      hash bs = meta.fileHash := by
  unfold reconstructWrite at h ⊢
  rcases (collectChunks disk name meta.totalChunks).eq_none_or_eq_some with hcc | ⟨bs, hcc⟩
  · rw [hcc] at h
    simp at h
  · rw [hcc] at h ⊢
    by_cases hh : hash bs = meta.fileHash
    · refine ⟨bs, ?_, hh⟩
      simpa [hh] using
        dlookup_dset_self (derase disk.shared (withSuffixPart name)) name bs
    · simp [hh] at h

/-- Claim C2 (amended): whenever `reconstruct_file` returns success **and
no file of the stored size already existed under the target name before
the call** (the unverified shortcut path), the resulting shared-folder
file's digest equals the stored `fileHash`. -/
theorem reconstruct_success_hash (hash : Bytes → String) (st : StoreState) (disk : Disk)
    (name : String)
    (hpre : ∀ m, getFileMetadata st name = some m →
      ∀ bs, dlookup disk.shared name = some bs → bs.length ≠ m.fileSize)
    (h : (reconstructFile hash st disk name).1 = true) :
    ∃ m bs, getFileMetadata st name = some m ∧
      dlookup (reconstructFile hash st disk name).2.shared name = some bs ∧
      hash bs = m.fileHash := by
  unfold reconstructFile at h ⊢
  by_cases hc : hasCompleteFile st name = false
  · rw [if_pos hc] at h
    simp at h
  · rw [if_neg hc] at h ⊢
    rcases (dlookup st.localFilesMetadata name).eq_none_or_eq_some with hm | ⟨meta, hm⟩
    · rw [hm] at h
      simp at h
    · rw [hm] at h ⊢
      have hm' : getFileMetadata st name = some meta := hm
      rcases (dlookup disk.shared name).eq_none_or_eq_some with hs | ⟨existing, hs⟩
      · rw [hs] at h ⊢
        obtain ⟨bs, h1, h2⟩ := reconstructWrite_success h
        exact ⟨meta, bs, hm', h1, h2⟩
      · rw [hs] at h ⊢
        have hne : existing.length ≠ meta.fileSize := hpre meta hm' existing hs
        simp only [hne, ite_false, if_false, if_neg hne] at h ⊢
        obtain ⟨bs, h1, h2⟩ := reconstructWrite_success h
        exact ⟨meta, bs, hm', h1, h2⟩

/-- Witness for the amended C2: a store holding the only chunk of file
`g`, no pre-existing shared file; reconstruction writes the chunk bytes
and the digest matches. -/
theorem reconstruct_success_hash_witness :
    ∃ m bs,
      getFileMetadata ⟨[("g", ⟨"g", 1, "W", 1, 0⟩)], [("g", [0])]⟩ "g" = some m ∧
      dlookup (reconstructFile (fun _ => "W") ⟨[("g", ⟨"g", 1, "W", 1, 0⟩)], [("g", [0])]⟩
        ⟨[], [("g.0.chunk", [3])]⟩ "g").2.shared "g" = some bs ∧
      (fun _ => "W") bs = m.fileHash :=
  reconstruct_success_hash (fun _ => "W") ⟨[("g", ⟨"g", 1, "W", 1, 0⟩)], [("g", [0])]⟩
    ⟨[], [("g.0.chunk", [3])]⟩ "g"
    (by intro m hm bs hbs; simp [dlookup] at hbs)
    (by decide)

/-- Claim C6 (counterexample): `save_chunk` on a file with no stored
metadata creates an `availableChunks` key with no metadata record,
violating invariant (a). -/
theorem save_chunk_breaks_metadata_invariant :
    chunksHaveMetadata (saveChunk ⟨[], []⟩ ⟨[], []⟩ "f" 0 [1]).1 = false := by
  decide

/-- Claim C6 (amended): `save_chunk` preserves the invariant that every
`availableChunks` key has a metadata record **provided the target file
already has one** — which both call sites (`process_new_file` and the
download task) establish before calling; for a file without metadata the
invariant is broken (see the counterexample). -/
theorem save_chunk_preserves_metadata_invariant (st : StoreState) (disk : Disk)
    (name : String) (i : Nat) (data : Bytes)
    (hinv : chunksHaveMetadata st = true)
    (hmeta : dmem st.localFilesMetadata name = true) :
    chunksHaveMetadata (saveChunk st disk name i data).1 = true := by
  simp only [chunksHaveMetadata, saveChunk] at hinv ⊢
  rw [List.all_eq_true] at hinv ⊢
  intro p hp
  rcases mem_dset hp with h | h
  · subst h
    exact hmeta
  · exact hinv p h

/-- Witness for the amended C6 at a concrete store. -/
theorem save_chunk_preserves_metadata_invariant_witness :
    chunksHaveMetadata
      (saveChunk ⟨[("f", ⟨"f", 5, "H", 1, 0⟩)], []⟩ ⟨[], []⟩ "f" 0 [1, 2]).1 = true :=
  save_chunk_preserves_metadata_invariant ⟨[("f", ⟨"f", 5, "H", 1, 0⟩)], []⟩ ⟨[], []⟩
    "f" 0 [1, 2] (by decide) (by decide)

theorem pyChunks_nil (cs : Nat) (hcs : 0 < cs) : pyChunks cs [] = [] := by
  have h : (cs - 1) / cs = 0 := Nat.div_eq_of_lt (by omega)
  simp [pyChunks, h]

theorem pyChunks_cons (cs : Nat) (hcs : 0 < cs) (s : Bytes) (hs : s ≠ []) :
    pyChunks cs s = s.take cs :: pyChunks cs (s.drop cs) := by
  have hlen : 0 < s.length := List.length_pos.mpr hs
  have htot : (s.length + cs - 1) / cs = ((s.drop cs).length + cs - 1) / cs + 1 := by
    rw [List.length_drop]
    rcases le_or_lt s.length cs with h | h
    · have h1 : s.length - cs = 0 := by omega
      have h2 : (0 + cs - 1) / cs = 0 := Nat.div_eq_of_lt (by omega)
      have h3 : s.length + cs - 1 = (s.length - 1) + cs := by omega
      have h4 : (s.length - 1) / cs = 0 := Nat.div_eq_of_lt (by omega)
      rw [h1, h2, h3, Nat.add_div_right _ hcs, h4]
    · have h3 : s.length + cs - 1 = (s.length - 1) + cs := by omega
      have h4 : s.length - cs + cs - 1 = (s.length - cs - 1) + cs := by omega
      have h5 : s.length - 1 = (s.length - cs - 1) + cs := by omega
      rw [h3, h4, Nat.add_div_right _ hcs, Nat.add_div_right _ hcs, h5,
        Nat.add_div_right _ hcs]
  unfold pyChunks
  rw [htot, List.range_succ_eq_map, List.map_cons, List.map_map]
  congr 1
  · simp
  · apply List.map_congr_left
    intro i _
    show (s.drop (Nat.succ i * cs)).take cs = ((s.drop cs).drop (i * cs)).take cs
    rw [List.drop_drop, Nat.succ_mul, Nat.add_comm (i * cs) cs]

theorem pyChunks_flatten (cs : Nat) (hcs : 0 < cs) (s : Bytes) :
    (pyChunks cs s).flatten = s := by
  have key : ∀ n, ∀ t : Bytes, t.length ≤ n → (pyChunks cs t).flatten = t := by
    intro n
    induction n with
    | zero =>
      intro t ht
      have h0 : t = [] := List.eq_nil_of_length_eq_zero (Nat.le_zero.mp ht)
      subst h0
      rw [pyChunks_nil cs hcs]
      rfl
    | succ n ih =>
      intro t ht
      by_cases h : t = []
      · subst h
        rw [pyChunks_nil cs hcs]
        rfl
      · rw [pyChunks_cons cs hcs t h, List.flatten_cons,
          ih (t.drop cs) (by rw [List.length_drop]
                             have := List.length_pos.mpr h
                             omega)]
        exact List.take_append_drop cs t
  exact key s.length s le_rfl

/-- Claim C8: splitting any byte string the way `process_new_file` does —
`ceil(L / CHUNK_SIZE)` chunks of `CHUNK_SIZE` bytes each, last one
shorter — and concatenating the chunks in index order, as
`reconstruct_file` does, is the identity. -/
theorem chunk_join_identity (s : Bytes) :
    (fileChunks s).flatten = s ∧
    (fileChunks s).length = (s.length + CHUNK_SIZE - 1) / CHUNK_SIZE := by
  constructor
  · exact pyChunks_flatten CHUNK_SIZE (by norm_num [CHUNK_SIZE]) s
  · simp [fileChunks, pyChunks]

/-! ### Theorems about the downloader's rarest-first scheduling -/

theorem chunkScore_eq_specScore (peers : List (String × KnownPeer)) (file : String)
    (idx : Nat) (hnd : ∀ p ∈ peers, ∀ fe ∈ p.2.files, (fe.2 : List Nat).Nodup) :
    chunkScore peers file idx = specScore peers file idx := by
  induction peers with
  | nil => rfl
  | cons hd tl ih =>
    have hhd : ∀ fe ∈ hd.2.files, (fe.2 : List Nat).Nodup :=
      hnd hd (List.mem_cons_self _ _)
    have htl : ∀ p ∈ tl, ∀ fe ∈ p.2.files, (fe.2 : List Nat).Nodup :=
      fun p hp => hnd p (List.mem_cons_of_mem _ hp)
    have ih' := ih htl
    unfold chunkScore specScore at ih' ⊢
    simp only [List.map_cons, List.sum_cons, List.filter_cons]
    cases hf : dlookup hd.2.files file with
    | none => simpa [hf] using ih'
    | some cs =>
      have hnodup : cs.Nodup := hhd (file, cs) (dlookup_eq_some_mem hf)
      by_cases hmem : idx ∈ cs
      · have hc1 : cs.count idx = 1 := List.count_eq_one_of_mem hnodup hmem
        simp [hf, hc1, hmem, ih']
        omega
      · have hc0 : cs.count idx = 0 := List.count_eq_zero_of_not_mem hmem
        simp [hf, hc0, hmem, ih']

theorem pyStableSortByKey_perm (key : Nat → Nat) (xs : List Nat) :
    List.Perm (pyStableSortByKey key xs) xs := by
  unfold pyStableSortByKey
  have h := (List.perm_insertionSort (stableLe key) xs.enum).map Prod.snd
  rwa [List.enum_map_snd] at h

theorem pyStableSortByKey_pairwise (key : Nat → Nat) (xs : List Nat)
    (hxs : xs.Sorted (· < ·)) :
    (pyStableSortByKey key xs).Pairwise
      (fun a b => key a < key b ∨ (key a = key b ∧ a < b)) := by
  unfold pyStableSortByKey
  rw [List.pairwise_map]
  have hsorted : (xs.enum.insertionSort (stableLe key)).Pairwise (stableLe key) :=
    List.sorted_insertionSort (stableLe key) xs.enum
  have hperm : List.Perm (xs.enum.insertionSort (stableLe key)) xs.enum :=
    List.perm_insertionSort (stableLe key) xs.enum
  have hndEnum : xs.enum.Nodup :=
    List.Nodup.of_map Prod.fst (by rw [List.enum_map_fst]; exact List.nodup_range _)
  have hnd : (xs.enum.insertionSort (stableLe key)).Nodup := hperm.nodup_iff.mpr hndEnum
  refine List.Pairwise.imp_of_mem ?_ (hsorted.and hnd)
  intro p q hp hq hpq
  obtain ⟨hle, hne⟩ := hpq
  have hp' : p ∈ xs.enum := hperm.mem_iff.mp hp
  have hq' : q ∈ xs.enum := hperm.mem_iff.mp hq
  obtain ⟨i, a⟩ := p
  obtain ⟨j, b⟩ := q
  rw [List.mk_mem_enum_iff_get?] at hp' hq'
  unfold stableLe at hle
  rcases hle with hlt | ⟨hkeq, hile⟩
  · exact Or.inl hlt
  · refine Or.inr ⟨hkeq, ?_⟩
    rcases lt_or_eq_of_le hile with hij | hij
    · obtain ⟨hilt, hia⟩ := List.get?_eq_some.mp hp'
      obtain ⟨hjlt, hjb⟩ := List.get?_eq_some.mp hq'
      have hmono : xs.get ⟨i, hilt⟩ < xs.get ⟨j, hjlt⟩ :=
        List.Sorted.get_strictMono hxs (Fin.mk_lt_mk.mpr hij)
      rwa [hia, hjb] at hmono
    · exfalso
      subst hij
      rw [hp'] at hq'
      cases hq'
      exact hne rfl

theorem take_take_min {α : Type} (l : List α) (n : Nat) :
    l.take n = l.take (min n l.length) := by
  rcases le_or_lt n l.length with h | h
  · rw [min_eq_left h]
  · rw [min_eq_right (le_of_lt h), List.take_length,
      List.take_of_length_le (le_of_lt h)]

/-- Claim C7: before each batch, every needed chunk is scored with the
number of known peers advertising the file that list it (0 when none
does, duplicates excluded by the per-peer no-duplicate hypothesis, true
of serialized Python sets); the schedule is a permutation of the needed
chunks sorted ascending by score with ties broken by ascending index
(the needed indices iterate in ascending order, as a CPython small-int
set does); and the submitted batch is the first
`min(CHUNK_DOWNLOADER_THREADS, |needed|)` chunks of that order. -/
theorem rarest_first_schedule (needed : List Nat) (file : String)
    (peers : List (String × KnownPeer))
    (hne : needed ≠ [])
    (hsorted : needed.Sorted (· < ·))
    (hnd : ∀ p ∈ peers, ∀ fe ∈ p.2.files, (fe.2 : List Nat).Nodup) :
    (∀ i, chunkScore peers file i = specScore peers file i) ∧
    List.Perm (getRarestChunksFirst needed file peers) needed ∧
    (getRarestChunksFirst needed file peers).Pairwise
      (fun a b => specScore peers file a < specScore peers file b ∨
        (specScore peers file a = specScore peers file b ∧ a < b)) ∧
    fetchBatch needed file peers =
      (getRarestChunksFirst needed file peers).take
        (min CHUNK_DOWNLOADER_THREADS needed.length) := by
  have hscore : ∀ i, chunkScore peers file i = specScore peers file i :=
    fun i => chunkScore_eq_specScore peers file i hnd
  refine ⟨hscore, pyStableSortByKey_perm _ _, ?_, ?_⟩
  · have hp := pyStableSortByKey_pairwise (chunkScore peers file) needed hsorted
    refine hp.imp ?_
    intro a b hab
    rcases hab with h | ⟨h1, h2⟩
    · exact Or.inl (by rwa [hscore a, hscore b] at h)
    · exact Or.inr ⟨by rwa [hscore a, hscore b] at h1, h2⟩
  · unfold fetchBatch
    have hl : (getRarestChunksFirst needed file peers).length = needed.length :=
      (pyStableSortByKey_perm (chunkScore peers file) needed).length_eq
    rw [take_take_min (getRarestChunksFirst needed file peers) CHUNK_DOWNLOADER_THREADS,
      hl]

/-- Witness for C7 in the spec's rarest-first scenario: with peer A
holding chunks 0, 1, 2 and peer C holding chunk 2, the schedule for
needed = {0, 1, 2} is a permutation of the needed set and the batch is
its first min(5, 3) chunks. -/
theorem rarest_first_schedule_witness :
    List.Perm (getRarestChunksFirst [0, 1, 2] "x.bin" ratePeers) [0, 1, 2] ∧
    fetchBatch [0, 1, 2] "x.bin" ratePeers =
      (getRarestChunksFirst [0, 1, 2] "x.bin" ratePeers).take (min 5 3) :=
  ⟨(rarest_first_schedule [0, 1, 2] "x.bin" ratePeers (by decide) (by decide)
      (by decide)).2.1,
    (rarest_first_schedule [0, 1, 2] "x.bin" ratePeers (by decide) (by decide)
      (by decide)).2.2.2⟩

end P2P
